import Mathlib

/-!
Circuit-state synchronisation engine of the quantum simulator front-end.

A shallow embedding of `src/frontend/src/App.jsx` (the circuit model, the wire
translator, the inbound-message handler and the reset handler) together with
the two reads of `src/frontend/src/components/CircuitBuilder.jsx` that the
properties below mention (the gate palette and the per-cell gate lookup), and
of the connection handlers of `src/frontend/src/hooks/useWebSocket.js`, a hook
that `App.jsx` does not import.

Conventions of the embedding.

* JavaScript numbers that the program computes with are integers or `NaN`
  (`JsNum`).  Numbers that are only carried around (Bloch-vector components,
  probabilities, the rotation angle) are rationals: the program never does
  arithmetic on them, and every double is a rational.
* React state is one record, `AppState`.  A handler is a function on it; the
  commit that follows a handler (`render`) runs the send-on-change effect when
  one of its dependencies changed in the sense of `Object.is`.
* The socket is represented by its `readyState` and by the list of messages
  handed to `ws.send` so far (`sent`).
-/

namespace QuantumSimulator

/-! ## Data model -/

/-- A JavaScript number as far as the circuit model computes with it:
`NaN` or an integer.  (`parseInt` returns nothing else; integers beyond
`2^53` and the negative zero are outside the model.) -/
inductive JsNum where
  | nan : JsNum
  | int (i : Int) : JsNum
  deriving DecidableEq, Repr

instance : OfNat JsNum k := ⟨JsNum.int k⟩

/-- The remainder operator `a % b` of JavaScript for an integer dividend: the
result is `NaN` when the divisor is `NaN` or zero, and otherwise the truncating
remainder, which takes the sign of the dividend. -/
def jsRem (a : Int) : JsNum → JsNum
  | JsNum.nan => JsNum.nan
  | JsNum.int b => if b = 0 then JsNum.nan else JsNum.int (Int.tmod a b)

/-- A placed gate, the object `{ type, qubitIndex, timeStep }` that
`handleDrop` builds.  The two coordinates are indices of the `Array.from`
grids drawn by `CircuitBuilder`, hence natural numbers. -/
structure Gate where
  type : String
  qubitIndex : Nat
  timeStep : Nat
  deriving DecidableEq, Repr

/-- Palette of `CircuitBuilder.jsx`: `const gateTypes = [...]`. -/
def gateTypes : List String := ["H", "X", "Y", "Z", "CNOT", "Rx", "Ry", "Rz"]

/-- The predicate `g => g.qubitIndex === q && g.timeStep === t` used by
`findIndex`, `filter` and `find` alike. -/
def atCoord (qubitIndex timeStep : Nat) (g : Gate) : Bool :=
  g.qubitIndex == qubitIndex && g.timeStep == timeStep

/-- `Array.prototype.findIndex`: index of the first element satisfying the
predicate, or `-1`. -/
def findIndex (p : Gate → Bool) : List Gate → Int
  | [] => -1
  | g :: rest =>
    if p g then 0
    else
      let r := findIndex p rest
      if r ≥ 0 then r + 1 else -1

/-- `Array.prototype.find` as used in `CircuitBuilder` to decide what a grid
cell shows: `circuitGates.find(g => g.qubitIndex === q && g.timeStep === t)`. -/
def gateAt (circuitGates : List Gate) (qubitIndex timeStep : Nat) : Option Gate :=
  circuitGates.find? (atCoord qubitIndex timeStep)

/-- The updater that `updateCircuitGate(newGate)` hands to `setCircuitGates`:
overwrite the first gate at the same coordinate, or append. -/
def updateCircuitGate (newGate : Gate) (prev : List Gate) : List Gate :=
  let «exists» := findIndex (atCoord newGate.qubitIndex newGate.timeStep) prev
  if «exists» ≥ 0 then
    prev.set «exists».toNat newGate
  else
    prev ++ [newGate]

/-- The updater that `removeCircuitGate(qubitIndex, timeStep)` hands to
`setCircuitGates`. -/
def removeCircuitGate (qubitIndex timeStep : Nat) (prev : List Gate) : List Gate :=
  prev.filter (fun g => !(atCoord qubitIndex timeStep g))

/-! ## Wire translator -/

/-- The double `Math.PI`, as the rational number it is
(`0x400921FB54442D18`, that is `884279719003555 / 2^48`). -/
def Math.PI : ℚ := 884279719003555 / 281474976710656

/-- `String.prototype.startsWith` (no position argument). -/
def startsWith (s searchString : String) : Bool :=
  searchString.data.isPrefixOf s.data

/-- A wire-level operation, the object `op` built in `sendCircuitToBackend`.
A field that the code does not assign is absent (`none`). -/
structure Operation where
  type : String
  control : Option Nat
  target : JsNum
  angle : Option ℚ
  deriving DecidableEq, Repr

/-- The callback of `currentGates.map(...)` in `sendCircuitToBackend`. -/
def toOperation (currentNumQubits : JsNum) (g : Gate) : Operation :=
  let op : Operation :=
    if g.type = "CNOT" then
      { type := g.type, control := some g.qubitIndex,
        target := jsRem ((g.qubitIndex : Int) + 1) currentNumQubits, angle := none }
    else
      { type := g.type, control := none, target := JsNum.int g.qubitIndex, angle := none }
  if startsWith g.type "R" then { op with angle := some (Math.PI / 2) } else op

/-- The object `message` of `sendCircuitToBackend`. -/
structure OutboundMessage where
  numQubits : JsNum
  operations : List Operation
  deriving DecidableEq, Repr

/-- The message that `sendCircuitToBackend` builds from its two arguments. -/
def buildMessage (currentNumQubits : JsNum) (currentGates : List Gate) : OutboundMessage :=
  { numQubits := currentNumQubits,
    operations := currentGates.map (toOperation currentNumQubits) }

/-! ## Inbound messages and application state -/

/-- A parsed inbound message that is a JSON object, with the three fields the
application reads.  An absent field is `none`.  As in the wire protocol, an
error is a string, a Bloch vector is an array of numbers and `probabilities`
is an object (its entries in enumeration order); arrays and objects are
truthy in JavaScript, the empty string is not. -/
structure InboundMessage where
  error : Option String
  blochVectors : Option (List (List ℚ))
  probabilities : Option (List (String × ℚ))
  deriving DecidableEq, Repr

/-- The field `readyState` of a `WebSocket`. -/
inductive ReadyState where
  | CONNECTING | OPEN | CLOSING | CLOSED
  deriving DecidableEq, Repr

/-- State of the `App` component after mount: its five `useState` cells, the
identity of the array held in `circuitGates` (a fresh array gets a fresh
number), the `readyState` of the socket in `wsRef.current`, and the messages
passed to `ws.send` so far, oldest first. -/
structure AppState where
  numQubits : JsNum
  circuitGates : List Gate
  gatesRef : Nat
  simulationResults : Option InboundMessage
  isConnected : Bool
  wsMessages : List String
  readyState : ReadyState
  sent : List OutboundMessage
  deriving DecidableEq, Repr

/-- The state after the first render and the mount effect: the `useState`
defaults and a socket that is still connecting. -/
def AppState.initial : AppState :=
  { numQubits := 2, circuitGates := [], gatesRef := 0, simulationResults := none,
    isConnected := false, wsMessages := [], readyState := ReadyState.CONNECTING, sent := [] }

/-- `sendCircuitToBackend(currentNumQubits, currentGates)`: when the socket is
open the message is built and handed to `ws.send`; otherwise nothing happens. -/
def sendCircuitToBackend (currentNumQubits : JsNum) (currentGates : List Gate)
    (s : AppState) : AppState :=
  if s.readyState = ReadyState.OPEN then
    { s with sent := s.sent ++ [buildMessage currentNumQubits currentGates] }
  else s

/-- Body of the send-on-change effect (`App.jsx`, lines 97 to 101). -/
def sendOnChange (s : AppState) : AppState :=
  if s.isConnected then sendCircuitToBackend s.numQubits s.circuitGates s else s

/-- Whether a dependency of the send-on-change effect differs between two
renders (`Object.is` on `numQubits`, `circuitGates`, `isConnected`; the fourth
dependency, `sendCircuitToBackend`, is memoised with no dependencies). -/
def depsChanged (old new : AppState) : Bool :=
  old.numQubits != new.numQubits || old.gatesRef != new.gatesRef
    || old.isConnected != new.isConnected

/-- The commit after a handler: the effect runs when a dependency changed. -/
def render (old new : AppState) : AppState :=
  if depsChanged old new then sendOnChange new else new

namespace App

/-- Handler `updateCircuitGate(newGate)`: the updater always returns a new
array. -/
def updateCircuitGate (newGate : Gate) (s : AppState) : AppState :=
  { s with circuitGates := QuantumSimulator.updateCircuitGate newGate s.circuitGates,
           gatesRef := s.gatesRef + 1 }

/-- Handler `removeCircuitGate(qubitIndex, timeStep)`: `filter` always returns
a new array. -/
def removeCircuitGate (qubitIndex timeStep : Nat) (s : AppState) : AppState :=
  { s with circuitGates := QuantumSimulator.removeCircuitGate qubitIndex timeStep s.circuitGates,
           gatesRef := s.gatesRef + 1 }

/-- The `onChange` handler of the qubit-count input,
`setNumQubits(parseInt(e.target.value))`, given the value of `parseInt`. -/
def setNumQubits (n : JsNum) (s : AppState) : AppState :=
  { s with numQubits := n }

/-- Handler `handleReset`.  The direct send reads `isConnected` of the render
in which the handler was created. -/
def handleReset (s : AppState) : AppState :=
  let s1 : AppState :=
    { s with numQubits := 2, circuitGates := [], gatesRef := s.gatesRef + 1,
             simulationResults := none,
             wsMessages := s.wsMessages ++ ["CIRCUIT CLEARED."] }
  if s.isConnected then sendCircuitToBackend 2 [] s1 else s1

/-- Handler `ws.onopen`.  It was created by the mount effect, so the
`numQubits` and `circuitGates` it passes on are those of the first render. -/
def onopen (s : AppState) : AppState :=
  let s1 : AppState :=
    { s with readyState := ReadyState.OPEN, isConnected := true,
             wsMessages := s.wsMessages ++ ["SYSTEM ONLINE. CONNECTED TO QUANTUM CORE."] }
  sendCircuitToBackend 2 [] s1

/-- Handler `ws.onmessage`, given the outcome of `JSON.parse(event.data)`
(`none` when it throws, which the handler catches).  `if (data.error)` tests
truthiness: a string is truthy unless it is empty. -/
def onmessage (parsed : Option InboundMessage) (s : AppState) : AppState :=
  match parsed with
  | none => s
  | some data =>
    match data.error with
    | some e =>
      if e ≠ "" then { s with wsMessages := s.wsMessages ++ ["ERROR: " ++ e] }
      else { s with simulationResults := some data }
    | none => { s with simulationResults := some data }

/-- Handler `ws.onclose` (the reconnect of `App.jsx` is commented out). -/
def onclose (s : AppState) : AppState :=
  { s with readyState := ReadyState.CLOSED, isConnected := false,
           wsMessages := s.wsMessages ++ ["CONNECTION LOST."] }

/-- Handler `ws.onerror`: `ws.close()` starts the closing handshake of a
socket that is not yet closing or closed. -/
def onerror (s : AppState) : AppState :=
  match s.readyState with
  | ReadyState.CLOSING => s
  | ReadyState.CLOSED => s
  | _ => { s with readyState := ReadyState.CLOSING }

end App

/-- What can happen to the mounted component. -/
inductive Event where
  | drop (newGate : Gate)
  | gateClick (qubitIndex timeStep : Nat)
  | qubitsChange (n : JsNum)
  | reset
  | wsOpen
  | wsMessage (parsed : Option InboundMessage)
  | wsClose
  | wsError
  deriving DecidableEq, Repr

/-- The handler an event runs. -/
def handle : Event → AppState → AppState
  | Event.drop newGate => App.updateCircuitGate newGate
  | Event.gateClick q t => App.removeCircuitGate q t
  | Event.qubitsChange n => App.setNumQubits n
  | Event.reset => App.handleReset
  | Event.wsOpen => App.onopen
  | Event.wsMessage parsed => App.onmessage parsed
  | Event.wsClose => App.onclose
  | Event.wsError => App.onerror

/-- One event: its handler, then the commit with the send-on-change effect. -/
def step (s : AppState) (e : Event) : AppState :=
  render s (handle e s)

/-- A finite sequence of events, from a given state. -/
def run (s : AppState) (es : List Event) : AppState :=
  es.foldl step s

/-! ## Presentation reads -/

/-- The prop `blochVector` of the `i`-th sphere:
`simulationResults?.blochVectors?.[i] || [0, 0, 1]`. -/
def blochVectorFor (s : AppState) (i : Nat) : List ℚ :=
  match s.simulationResults with
  | none => [0, 0, 1]
  | some r =>
    match r.blochVectors with
    | none => [0, 0, 1]
    | some vs =>
      match vs.get? i with
      | none => [0, 0, 1]
      | some v => v

/-- The entries the probability panel draws:
`simulationResults?.probabilities && Object.entries(simulationResults.probabilities)`. -/
def probabilityDistribution (s : AppState) : List (String × ℚ) :=
  match s.simulationResults with
  | none => []
  | some r =>
    match r.probabilities with
    | none => []
    | some ps => ps

/-- The footer line: `wsMessages[wsMessages.length - 1] || "INITIALIZING..."`. -/
def latestDiagnostic (s : AppState) : String :=
  match s.wsMessages.getLast? with
  | none => "INITIALIZING..."
  | some m => if m ≠ "" then m else "INITIALIZING..."

/-- No two gates of the list share a coordinate. -/
def UniqueCoords (gates : List Gate) : Prop :=
  gates.Pairwise (fun a b => ¬ (a.qubitIndex = b.qubitIndex ∧ a.timeStep = b.timeStep))

/-- The list holds a gate at the coordinate. -/
def Occupied (gates : List Gate) (qubitIndex timeStep : Nat) : Prop :=
  ∃ h ∈ gates, h.qubitIndex = qubitIndex ∧ h.timeStep = timeStep

/-- How many gates of the list sit at the coordinate. -/
def countAt (gates : List Gate) (qubitIndex timeStep : Nat) : Nat :=
  (gates.filter (atCoord qubitIndex timeStep)).length

/-! ## Timers and the reconnecting hook -/

/-- The mounted `App` together with the delays, in milliseconds, of the timers
pending in the event loop. -/
structure Mounted where
  app : AppState
  timers : List Nat
  deriving DecidableEq, Repr

/-- The mounted `App` right after mount: no timer is pending. -/
def Mounted.initial : Mounted :=
  { app := AppState.initial, timers := [] }

/-- One event of the mounted `App`.  No handler of `App.jsx` calls
`setTimeout`: the only call, `setTimeout(connectWebSocket, 3000)` in
`ws.onclose`, is commented out, so the pending timers stay as they are. -/
def Mounted.step (m : Mounted) (e : Event) : Mounted :=
  { m with app := QuantumSimulator.step m.app e }

/-- A finite sequence of events of the mounted `App`. -/
def Mounted.run (m : Mounted) (es : List Event) : Mounted :=
  es.foldl Mounted.step m

namespace useWebSocket

/-- State of the hook `useWebSocket(url)` after mount: its three `useState`
cells (`null` and `undefined` are both `none`), the `readyState` of the socket
in `ws.current`, the delays of the pending `setTimeout(connect, ...)` timers,
oldest first, and the number of sockets constructed so far. -/
structure State where
  isConnected : Bool
  lastMessage : Option InboundMessage
  error : Option String
  readyState : ReadyState
  timers : List Nat
  sockets : Nat
  deriving DecidableEq, Repr

/-- The function `connect` of the hook: a new socket replaces `ws.current`. -/
def connect (s : State) : State :=
  { s with readyState := ReadyState.CONNECTING, sockets := s.sockets + 1 }

/-- The hook after its mount effect has called `connect()` once. -/
def State.initial : State :=
  connect { isConnected := false, lastMessage := none, error := none,
            readyState := ReadyState.CLOSED, timers := [], sockets := 0 }

/-- Handler `ws.current.onopen` of the hook. -/
def onopen (s : State) : State :=
  { s with readyState := ReadyState.OPEN, isConnected := true, error := none }

/-- Handler `ws.current.onmessage` of the hook, given `event.data` and the
outcome of `JSON.parse(event.data)` (`none` when it throws). -/
def onmessage (data : String) (parsed : Option InboundMessage) (s : State) : State :=
  match parsed with
  | some message => { s with lastMessage := some message }
  | none => { s with error := some ("Failed to parse message: " ++ data) }

/-- Handler `ws.current.onerror` of the hook, given `e.message`. -/
def onerror (message : Option String) (s : State) : State :=
  { s with error := message, isConnected := false }

/-- Handler `ws.current.onclose` of the hook: `setTimeout(connect, 3000)`. -/
def onclose (s : State) : State :=
  { s with readyState := ReadyState.CLOSED, isConnected := false,
           timers := s.timers ++ [3000] }

/-- The oldest pending timer fires and runs `connect`. -/
def timeout (s : State) : State :=
  match s.timers with
  | [] => s
  | _ :: rest => connect { s with timers := rest }

end useWebSocket

/-! ## Lemmas on the circuit model -/

theorem atCoord_iff (q t : Nat) (g : Gate) :
    atCoord q t g = true ↔ g.qubitIndex = q ∧ g.timeStep = t := by
  simp [atCoord]

theorem updateCircuitGate_nil (g : Gate) : updateCircuitGate g [] = [g] := by
  simp [updateCircuitGate, findIndex]

theorem updateCircuitGate_cons (g h : Gate) (rest : List Gate) :
    updateCircuitGate g (h :: rest) =
      if atCoord g.qubitIndex g.timeStep h then g :: rest
      else h :: updateCircuitGate g rest := by
  unfold updateCircuitGate
  simp only [findIndex]
  by_cases hp : atCoord g.qubitIndex g.timeStep h = true
  · simp [hp]
  · simp only [hp, Bool.false_eq_true, if_false]
    by_cases hr : findIndex (atCoord g.qubitIndex g.timeStep) rest ≥ 0
    · have h1 : findIndex (atCoord g.qubitIndex g.timeStep) rest + 1 ≥ 0 := by omega
      have h2 : (findIndex (atCoord g.qubitIndex g.timeStep) rest + 1).toNat
          = (findIndex (atCoord g.qubitIndex g.timeStep) rest).toNat + 1 := by omega
      simp [hr, h1, h2]
    · simp [hr]

theorem mem_updateCircuitGate (g : Gate) (gates : List Gate) (b : Gate)
    (hb : b ∈ updateCircuitGate g gates) : b ∈ gates ∨ b = g := by
  induction gates with
  | nil => simpa [updateCircuitGate_nil] using hb
  | cons h rest ih =>
    rw [updateCircuitGate_cons] at hb
    split at hb
    · rcases List.mem_cons.mp hb with rfl | hb
      · exact Or.inr rfl
      · exact Or.inl (List.mem_cons_of_mem _ hb)
    · rcases List.mem_cons.mp hb with rfl | hb
      · exact Or.inl (List.mem_cons_self _ _)
      · rcases ih hb with h1 | h1
        · exact Or.inl (List.mem_cons_of_mem _ h1)
        · exact Or.inr h1

theorem gateAt_updateCircuitGate (g : Gate) (gates : List Gate) :
    gateAt (updateCircuitGate g gates) g.qubitIndex g.timeStep = some g := by
  induction gates with
  | nil => simp [updateCircuitGate_nil, gateAt, atCoord]
  | cons h rest ih =>
    rw [updateCircuitGate_cons]
    by_cases hp : atCoord g.qubitIndex g.timeStep h = true
    · simp only [hp, if_true]
      simp [gateAt, atCoord]
    · simp only [hp, Bool.false_eq_true, if_false]
      simp only [gateAt] at ih ⊢
      rw [List.find?_cons]
      simp [hp, ih]

theorem length_updateCircuitGate_of_occupied (g : Gate) (gates : List Gate)
    (hocc : Occupied gates g.qubitIndex g.timeStep) :
    (updateCircuitGate g gates).length = gates.length := by
  induction gates with
  | nil => rcases hocc with ⟨h, hm, _⟩; simp at hm
  | cons h rest ih =>
    rw [updateCircuitGate_cons]
    by_cases hp : atCoord g.qubitIndex g.timeStep h = true
    · simp [hp]
    · simp only [hp, Bool.false_eq_true, if_false, List.length_cons]
      congr 1
      apply ih
      rcases hocc with ⟨x, hx, hxc⟩
      rcases List.mem_cons.mp hx with rfl | hx
      · exact absurd ((atCoord_iff _ _ _).mpr hxc) hp
      · exact ⟨x, hx, hxc⟩

theorem length_updateCircuitGate_of_free (g : Gate) (gates : List Gate)
    (hfree : ¬ Occupied gates g.qubitIndex g.timeStep) :
    (updateCircuitGate g gates).length = gates.length + 1 := by
  induction gates with
  | nil => simp [updateCircuitGate_nil]
  | cons h rest ih =>
    rw [updateCircuitGate_cons]
    by_cases hp : atCoord g.qubitIndex g.timeStep h = true
    · exact absurd ⟨h, List.mem_cons_self _ _, (atCoord_iff _ _ _).mp hp⟩ hfree
    · simp only [hp, Bool.false_eq_true, if_false, List.length_cons]
      congr 1
      apply ih
      rintro ⟨x, hx, hxc⟩
      exact hfree ⟨x, List.mem_cons_of_mem _ hx, hxc⟩

theorem countAt_updateCircuitGate_of_occupied (g : Gate) (gates : List Gate)
    (hocc : Occupied gates g.qubitIndex g.timeStep) :
    countAt (updateCircuitGate g gates) g.qubitIndex g.timeStep
      = countAt gates g.qubitIndex g.timeStep := by
  induction gates with
  | nil => rcases hocc with ⟨h, hm, _⟩; simp at hm
  | cons h rest ih =>
    rw [updateCircuitGate_cons]
    by_cases hp : atCoord g.qubitIndex g.timeStep h = true
    · have hg : atCoord g.qubitIndex g.timeStep g = true := by simp [atCoord]
      simp [hp, hg, countAt]
    · have hrest : Occupied rest g.qubitIndex g.timeStep := by
        rcases hocc with ⟨x, hx, hxc⟩
        rcases List.mem_cons.mp hx with rfl | hx
        · exact absurd ((atCoord_iff _ _ _).mpr hxc) hp
        · exact ⟨x, hx, hxc⟩
      have := ih hrest
      simp only [countAt] at this ⊢
      simp [hp, this]

theorem uniqueCoords_updateCircuitGate (g : Gate) (gates : List Gate)
    (hu : UniqueCoords gates) : UniqueCoords (updateCircuitGate g gates) := by
  induction gates with
  | nil => simp [updateCircuitGate_nil, UniqueCoords]
  | cons h rest ih =>
    rw [updateCircuitGate_cons]
    have hu2 := List.pairwise_cons.mp hu
    by_cases hp : atCoord g.qubitIndex g.timeStep h = true
    · simp only [hp, if_true]
      have hc := (atCoord_iff _ _ _).mp hp
      refine List.pairwise_cons.mpr ⟨?_, hu2.2⟩
      intro b hb
      have := hu2.1 b hb
      rw [hc.1, hc.2] at this
      exact this
    · simp only [hp, Bool.false_eq_true, if_false]
      refine List.pairwise_cons.mpr ⟨?_, ih hu2.2⟩
      intro b hb
      rcases mem_updateCircuitGate g rest b hb with h1 | rfl
      · exact hu2.1 b h1
      · intro hc
        exact hp ((atCoord_iff _ _ _).mpr hc)

theorem uniqueCoords_removeCircuitGate (q t : Nat) (gates : List Gate)
    (hu : UniqueCoords gates) : UniqueCoords (removeCircuitGate q t gates) :=
  List.Pairwise.sublist (List.filter_sublist _) hu

/-! ## Lemmas on the commit -/

theorem sendCircuitToBackend_frame (n : JsNum) (gs : List Gate) (s : AppState) :
    (sendCircuitToBackend n gs s).numQubits = s.numQubits ∧
    (sendCircuitToBackend n gs s).circuitGates = s.circuitGates ∧
    (sendCircuitToBackend n gs s).simulationResults = s.simulationResults ∧
    (sendCircuitToBackend n gs s).isConnected = s.isConnected ∧
    (sendCircuitToBackend n gs s).wsMessages = s.wsMessages ∧
    (sendCircuitToBackend n gs s).readyState = s.readyState := by
  unfold sendCircuitToBackend
  split <;> simp

theorem render_frame (old new : AppState) :
    (render old new).numQubits = new.numQubits ∧
    (render old new).circuitGates = new.circuitGates ∧
    (render old new).simulationResults = new.simulationResults ∧
    (render old new).isConnected = new.isConnected ∧
    (render old new).wsMessages = new.wsMessages ∧
    (render old new).readyState = new.readyState := by
  unfold render sendOnChange
  split
  · split
    · exact sendCircuitToBackend_frame _ _ _
    · simp
  · simp

theorem handle_uniqueCoords (e : Event) (s : AppState) (hu : UniqueCoords s.circuitGates) :
    UniqueCoords (handle e s).circuitGates := by
  cases e with
  | drop g => exact uniqueCoords_updateCircuitGate g _ hu
  | gateClick q t => exact uniqueCoords_removeCircuitGate q t _ hu
  | qubitsChange n => exact hu
  | reset =>
    simp only [handle, App.handleReset]
    split
    · rw [(sendCircuitToBackend_frame _ _ _).2.1]; exact List.Pairwise.nil
    · exact List.Pairwise.nil
  | wsOpen =>
    simp only [handle, App.onopen]
    rw [(sendCircuitToBackend_frame _ _ _).2.1]; exact hu
  | wsMessage parsed =>
    simp only [handle, App.onmessage]
    split
    · exact hu
    · split
      · split <;> exact hu
      · exact hu
  | wsClose => exact hu
  | wsError =>
    simp only [handle, App.onerror]
    split <;> exact hu

theorem step_uniqueCoords (e : Event) (s : AppState) (hu : UniqueCoords s.circuitGates) :
    UniqueCoords (step s e).circuitGates := by
  unfold step
  rw [(render_frame _ _).2.1]
  exact handle_uniqueCoords e s hu

theorem run_uniqueCoords (es : List Event) (s : AppState) (hu : UniqueCoords s.circuitGates) :
    UniqueCoords (run s es).circuitGates := by
  induction es generalizing s with
  | nil => exact hu
  | cons e rest ih => exact ih (step s e) (step_uniqueCoords e s hu)

/-! ## The circuit model -/

/-- C1: placing a gate at an occupied coordinate keeps the length of the gate
list, keeps the number of gates at that coordinate, and the lookup at that
coordinate then gives the new gate (so its type); placing a gate at a free
coordinate makes the list one longer, and the lookup finds the new gate. -/
theorem updateCircuitGate_replaces_or_appends (gates : List Gate) (g : Gate) :
    (Occupied gates g.qubitIndex g.timeStep →
      (updateCircuitGate g gates).length = gates.length ∧
      countAt (updateCircuitGate g gates) g.qubitIndex g.timeStep
        = countAt gates g.qubitIndex g.timeStep ∧
      (gateAt (updateCircuitGate g gates) g.qubitIndex g.timeStep).map Gate.type
        = some g.type) ∧
    (¬ Occupied gates g.qubitIndex g.timeStep →
      (updateCircuitGate g gates).length = gates.length + 1 ∧
      gateAt (updateCircuitGate g gates) g.qubitIndex g.timeStep = some g) := by
  refine ⟨fun hocc => ⟨length_updateCircuitGate_of_occupied g gates hocc,
      countAt_updateCircuitGate_of_occupied g gates hocc, ?_⟩,
    fun hfree => ⟨length_updateCircuitGate_of_free g gates hfree,
      gateAt_updateCircuitGate g gates⟩⟩
  rw [gateAt_updateCircuitGate]
  rfl

theorem updateCircuitGate_replaces_or_appends_witness :
    (Occupied [⟨"H", 0, 0⟩] 0 0 ∧
      (updateCircuitGate ⟨"X", 0, 0⟩ [⟨"H", 0, 0⟩]).length = 1 ∧
      (gateAt (updateCircuitGate ⟨"X", 0, 0⟩ [⟨"H", 0, 0⟩]) 0 0).map Gate.type = some "X") ∧
    (¬ Occupied [⟨"H", 0, 0⟩] 1 0 ∧
      (updateCircuitGate ⟨"X", 1, 0⟩ [⟨"H", 0, 0⟩]).length = 2 ∧
      gateAt (updateCircuitGate ⟨"X", 1, 0⟩ [⟨"H", 0, 0⟩]) 1 0 = some ⟨"X", 1, 0⟩) := by
  have hocc : Occupied [⟨"H", 0, 0⟩] 0 0 := ⟨⟨"H", 0, 0⟩, List.mem_cons_self _ _, rfl, rfl⟩
  have hfree : ¬ Occupied [⟨"H", 0, 0⟩] 1 0 := by
    rintro ⟨h, hm, hq, _⟩
    rw [List.mem_singleton] at hm
    subst hm
    exact absurd hq (by decide)
  have h1 := (updateCircuitGate_replaces_or_appends [⟨"H", 0, 0⟩] ⟨"X", 0, 0⟩).1 hocc
  have h2 := (updateCircuitGate_replaces_or_appends [⟨"H", 0, 0⟩] ⟨"X", 1, 0⟩).2 hfree
  exact ⟨⟨hocc, h1.1, h1.2.2⟩, ⟨hfree, h2.1, h2.2⟩⟩

/-- C2: from the initial state, after any finite sequence of events (gate
placements, gate removals, resets and qubit-count changes, interleaved with
any socket events) no two gates of the gate list share a coordinate. -/
theorem reachable_uniqueCoords (es : List Event) :
    UniqueCoords (run AppState.initial es).circuitGates :=
  run_uniqueCoords es AppState.initial List.Pairwise.nil

/-- C3: removing at a coordinate that holds no gate gives back the same gate
list, in the same order; after the handler and its commit the gate list, the
qubit count, the snapshot and the diagnostics are those of before. -/
theorem removeCircuitGate_free_noop (s : AppState) (q t : Nat)
    (hfree : ¬ Occupied s.circuitGates q t) :
    removeCircuitGate q t s.circuitGates = s.circuitGates ∧
    (step s (Event.gateClick q t)).circuitGates = s.circuitGates ∧
    (step s (Event.gateClick q t)).numQubits = s.numQubits ∧
    (step s (Event.gateClick q t)).simulationResults = s.simulationResults ∧
    (step s (Event.gateClick q t)).wsMessages = s.wsMessages := by
  have hlist : removeCircuitGate q t s.circuitGates = s.circuitGates := by
    unfold removeCircuitGate
    rw [List.filter_eq_self]
    intro a ha
    by_cases hp : atCoord q t a = true
    · exact absurd ⟨a, ha, (atCoord_iff _ _ _).mp hp⟩ hfree
    · simp [hp]
  have hf := render_frame s (handle (Event.gateClick q t) s)
  refine ⟨hlist, ?_, ?_, ?_, ?_⟩
  · unfold step; rw [hf.2.1]; exact hlist
  · unfold step; rw [hf.1]; rfl
  · unfold step; rw [hf.2.2.1]; rfl
  · unfold step; rw [hf.2.2.2.2.1]; rfl

theorem removeCircuitGate_free_noop_witness :
    ¬ Occupied [(⟨"H", 0, 0⟩ : Gate)] 1 0 ∧
    removeCircuitGate 1 0 [⟨"H", 0, 0⟩] = [⟨"H", 0, 0⟩] := by
  have hfree : ¬ Occupied ({ AppState.initial with circuitGates := [⟨"H", 0, 0⟩] }).circuitGates 1 0 := by
    rintro ⟨h, hm, hq, _⟩
    rw [List.mem_singleton] at hm
    subst hm
    exact absurd hq (by decide)
  exact ⟨hfree, (removeCircuitGate_free_noop
    { AppState.initial with circuitGates := [⟨"H", 0, 0⟩] } 1 0 hfree).1⟩

/-! ## The wire translator -/

/-- With a zero or `NaN` qubit count the target of a CNOT is `NaN`. -/
theorem toOperation_cnot_degenerate (q t : Nat) :
    (toOperation 0 ⟨"CNOT", q, t⟩).target = JsNum.nan ∧
    (toOperation JsNum.nan ⟨"CNOT", q, t⟩).target = JsNum.nan := by
  constructor <;> simp [toOperation, startsWith, jsRem]

theorem startsWith_R_CNOT : startsWith "CNOT" "R" = false := by decide

/-- C4: for a non-zero integer qubit count `n`, a CNOT at qubit `q` is emitted
with control `q` and target the remainder of `q + 1` modulo `n`; any other
gate is emitted with target `q` and no control.  A CNOT at qubit 1 gets target
2 for three qubits and target 0 for two. -/
theorem toOperation_control_target (n : Int) (hn : n ≠ 0) (g : Gate) :
    (g.type = "CNOT" →
      (toOperation (JsNum.int n) g).control = some g.qubitIndex ∧
      (toOperation (JsNum.int n) g).target = JsNum.int (((g.qubitIndex : Int) + 1) % n)) ∧
    (g.type ≠ "CNOT" →
      (toOperation (JsNum.int n) g).target = JsNum.int g.qubitIndex ∧
      (toOperation (JsNum.int n) g).control = none) ∧
    toOperation 3 ⟨"CNOT", 1, g.timeStep⟩ = ⟨"CNOT", some 1, 2, none⟩ ∧
    toOperation 2 ⟨"CNOT", 1, g.timeStep⟩ = ⟨"CNOT", some 1, 0, none⟩ := by
  refine ⟨?_, ?_, ?_, ?_⟩
  · intro hc
    have hrem : Int.tmod ((g.qubitIndex : Int) + 1) n = ((g.qubitIndex : Int) + 1) % n := by
      rcases Int.lt_or_gt_of_ne hn with hneg | hpos
      · have h1 : Int.tmod ((g.qubitIndex : Int) + 1) (-n)
            = ((g.qubitIndex : Int) + 1) % (-n) :=
          Int.tmod_eq_emod (by omega) (by omega)
        rw [Int.tmod_neg, Int.emod_neg] at h1
        exact h1
      · exact Int.tmod_eq_emod (by omega) (by omega)
    simp [toOperation, hc, startsWith_R_CNOT, jsRem, hn, hrem]
  · intro hc
    unfold toOperation
    simp only [hc, if_false]
    split <;> simp
  · simp [toOperation, startsWith_R_CNOT, jsRem]
    decide
  · simp [toOperation, startsWith_R_CNOT, jsRem]
    decide

theorem toOperation_control_target_witness :
    (3 : Int) ≠ 0 ∧ (toOperation (JsNum.int 3) ⟨"CNOT", 2, 5⟩).control = some 2 ∧
      (toOperation (JsNum.int 3) ⟨"CNOT", 2, 5⟩).target = JsNum.int 0 ∧
      (toOperation (JsNum.int 3) ⟨"H", 2, 5⟩).target = JsNum.int 2 ∧
      (toOperation (JsNum.int 3) ⟨"H", 2, 5⟩).control = none := by
  have h1 := (toOperation_control_target 3 (by decide) ⟨"CNOT", 2, 5⟩).1 rfl
  have h2 := (toOperation_control_target 3 (by decide) ⟨"H", 2, 5⟩).2.1 (by decide)
  exact ⟨by decide, h1.1, h1.2, h2.1, h2.2⟩

/-- The double `Math.PI` is within `10⁻¹⁵` of the real number π. -/
theorem Math_PI_close_to_pi : |((Math.PI : ℚ) : ℝ) - Real.pi| < 1 / 10 ^ 15 := by
  have h1 := Real.pi_gt_d20
  have h2 := Real.pi_lt_d20
  rw [abs_lt]
  unfold Math.PI
  push_cast
  constructor <;> norm_num at h1 h2 ⊢ <;> linarith

theorem Math_PI_half_value : Math.PI / 2 = 884279719003555 / 562949953421312 := by
  unfold Math.PI
  norm_num

theorem Math_PI_half_close_to_half_pi :
    |((Math.PI / 2 : ℚ) : ℝ) - Real.pi / 2| < 1 / 10 ^ 15 := by
  have h1 := Real.pi_gt_d20
  have h2 := Real.pi_lt_d20
  rw [abs_lt]
  unfold Math.PI
  push_cast
  constructor <;> norm_num at h1 h2 ⊢ <;> linarith

/-- C5: for a gate whose type is in the palette, the emitted operation has an
angle exactly when the type is Rx, Ry or Rz, and the angle is then the
constant `Math.PI / 2`, that is the number `884279719003555 / 562949953421312`
(the double nearest to π/2), which lies within `10⁻¹⁵` of the real number π/2;
Rx at qubit 0 is emitted as type Rx, target 0, this angle, without control. -/
theorem toOperation_angle (n : JsNum) (g : Gate) (hg : g.type ∈ gateTypes) :
    ((toOperation n g).angle.isSome ↔ g.type ∈ ["Rx", "Ry", "Rz"]) ∧
    (∀ a, (toOperation n g).angle = some a →
      a = Math.PI / 2 ∧ a = 884279719003555 / 562949953421312 ∧
      |(a : ℝ) - Real.pi / 2| < 1 / 10 ^ 15) ∧
    toOperation n ⟨"Rx", 0, g.timeStep⟩
      = ⟨"Rx", none, 0, some (884279719003555 / 562949953421312)⟩ := by
  obtain ⟨ty, q, t⟩ := g
  simp only [gateTypes, List.mem_cons, List.mem_singleton, List.not_mem_nil, or_false] at hg
  have hRx : startsWith "Rx" "R" = true := by decide
  have hRy : startsWith "Ry" "R" = true := by decide
  have hRz : startsWith "Rz" "R" = true := by decide
  have hH : startsWith "H" "R" = false := by decide
  have hX : startsWith "X" "R" = false := by decide
  have hY : startsWith "Y" "R" = false := by decide
  have hZ : startsWith "Z" "R" = false := by decide
  refine ⟨?_, ?_, ?_⟩
  · rcases hg with rfl | rfl | rfl | rfl | rfl | rfl | rfl | rfl <;>
      simp [toOperation, hRx, hRy, hRz, hH, hX, hY, hZ, startsWith_R_CNOT]
  · intro a ha
    have hval : a = Math.PI / 2 := by
      rcases hg with rfl | rfl | rfl | rfl | rfl | rfl | rfl | rfl <;>
        simp [toOperation, hRx, hRy, hRz, hH, hX, hY, hZ, startsWith_R_CNOT] at ha <;>
        exact ha.symm
    refine ⟨hval, ?_, ?_⟩
    · rw [hval]; exact Math_PI_half_value
    · rw [hval]; exact Math_PI_half_close_to_half_pi
  · have hop : toOperation n ⟨"Rx", 0, t⟩ = ⟨"Rx", none, 0, some (Math.PI / 2)⟩ := by
      simp [toOperation, hRx]
      rfl
    rw [hop, Math_PI_half_value]

theorem toOperation_angle_witness :
    "Ry" ∈ gateTypes ∧
    (toOperation 2 ⟨"Ry", 1, 3⟩).angle = some (884279719003555 / 562949953421312) ∧
    (toOperation 2 ⟨"H", 1, 3⟩).angle = none := by
  have h := toOperation_angle 2 ⟨"Ry", 1, 3⟩ (by decide)
  have h' := toOperation_angle 2 ⟨"H", 1, 3⟩ (by decide)
  refine ⟨by decide, ?_, ?_⟩
  · have hs : (toOperation 2 ⟨"Ry", 1, 3⟩).angle.isSome = true := h.1.mpr (by decide)
    rcases Option.isSome_iff_exists.mp hs with ⟨a, ha⟩
    rw [ha, (h.2.1 a ha).2.1]
  · cases hH : (toOperation 2 ⟨"H", 1, 3⟩).angle with
    | none => rfl
    | some a =>
      have hs : (toOperation 2 ⟨"H", 1, 3⟩).angle.isSome = true := by rw [hH]; rfl
      exact absurd (h'.1.mp hs) (by decide)

/-- C6: the outbound message carries the given qubit count and one operation
per gate, the i-th being the expansion of the i-th gate; an open socket is
handed exactly this message.  Placing H at (0, 0) and then CNOT at (0, 1) in
the initial two-qubit model translates to H on target 0 followed by CNOT with
control 0 and target 1. -/
theorem buildMessage_one_operation_per_gate (n : JsNum) (gates : List Gate) (s : AppState) :
    (buildMessage n gates).numQubits = n ∧
    (buildMessage n gates).operations.length = gates.length ∧
    (∀ i, (buildMessage n gates).operations.get? i = (gates.get? i).map (toOperation n)) ∧
    (sendCircuitToBackend n gates s).sent
      = (if s.readyState = ReadyState.OPEN then s.sent ++ [buildMessage n gates] else s.sent) ∧
    buildMessage
        (run AppState.initial [Event.drop ⟨"H", 0, 0⟩, Event.drop ⟨"CNOT", 0, 1⟩]).numQubits
        (run AppState.initial [Event.drop ⟨"H", 0, 0⟩, Event.drop ⟨"CNOT", 0, 1⟩]).circuitGates
      = ⟨2, [⟨"H", none, 0, none⟩, ⟨"CNOT", some 0, 1, none⟩]⟩ := by
  refine ⟨rfl, by simp [buildMessage], fun i => by simp [buildMessage], ?_, by decide⟩
  unfold sendCircuitToBackend
  split <;> rfl

/-! ## The qubit count -/

/-- C7: the qubit-count handler stores whatever number it is given; from the
initial state the counts 7, 0, -3 and `NaN` are all accepted, and with an open
connection the count 7 is sent to the backend. -/
theorem setNumQubits_accepts_out_of_range :
    (step AppState.initial (Event.qubitsChange 7)).numQubits = 7 ∧
    (step AppState.initial (Event.qubitsChange 0)).numQubits = 0 ∧
    (step AppState.initial (Event.qubitsChange (JsNum.int (-3)))).numQubits = JsNum.int (-3) ∧
    (step AppState.initial (Event.qubitsChange JsNum.nan)).numQubits = JsNum.nan ∧
    (run AppState.initial [Event.wsOpen, Event.qubitsChange 7]).sent.getLast?
      = some ⟨7, []⟩ := by
  decide

/-! ## The result reconciler -/

theorem error_entry_ne_empty (e : String) : "ERROR: " ++ e ≠ "" := by
  intro h
  have hl := congrArg String.length h
  simp at hl
  exact absurd hl.1 (by decide)

theorem blochVectorFor_congr (s1 s2 : AppState)
    (h : s1.simulationResults = s2.simulationResults) (i : Nat) :
    blochVectorFor s1 i = blochVectorFor s2 i := by
  unfold blochVectorFor
  rw [h]

theorem probabilityDistribution_congr (s1 s2 : AppState)
    (h : s1.simulationResults = s2.simulationResults) :
    probabilityDistribution s1 = probabilityDistribution s2 := by
  unfold probabilityDistribution
  rw [h]

theorem step_wsMessage (s : AppState) (parsed : Option InboundMessage) :
    step s (Event.wsMessage parsed) = App.onmessage parsed s := by
  have hd : depsChanged s (App.onmessage parsed s) = false := by
    unfold App.onmessage
    split
    · simp [depsChanged]
    · split
      · split <;> simp [depsChanged]
      · simp [depsChanged]
  simp [step, handle, render, hd]

/-- C8, as the code has it for the empty string: an inbound message whose
error field is the empty string replaces the held snapshot, so that the
probability distribution and the first Bloch vector change, and nothing is
appended to the diagnostics. -/
theorem onmessage_empty_error_replaces_snapshot :
    (step { AppState.initial with
              simulationResults := some ⟨none, some [[1, 0, 0]], some [("0", 1)]⟩ }
        (Event.wsMessage (some ⟨some "", none, none⟩))).simulationResults
      = some ⟨some "", none, none⟩ ∧
    probabilityDistribution
      { AppState.initial with
          simulationResults := some ⟨none, some [[1, 0, 0]], some [("0", 1)]⟩ } = [("0", 1)] ∧
    probabilityDistribution
      (step { AppState.initial with
                simulationResults := some ⟨none, some [[1, 0, 0]], some [("0", 1)]⟩ }
        (Event.wsMessage (some ⟨some "", none, none⟩))) = [] ∧
    blochVectorFor
      { AppState.initial with
          simulationResults := some ⟨none, some [[1, 0, 0]], some [("0", 1)]⟩ } 0 = [1, 0, 0] ∧
    blochVectorFor
      (step { AppState.initial with
                simulationResults := some ⟨none, some [[1, 0, 0]], some [("0", 1)]⟩ }
        (Event.wsMessage (some ⟨some "", none, none⟩))) 0 = [0, 0, 1] ∧
    (step { AppState.initial with
              simulationResults := some ⟨none, some [[1, 0, 0]], some [("0", 1)]⟩ }
        (Event.wsMessage (some ⟨some "", none, none⟩))).wsMessages = [] := by
  refine ⟨?_, rfl, ?_, rfl, ?_, ?_⟩ <;> rw [step_wsMessage] <;> rfl

/-- C8, amended: for an inbound message whose error field is a non-empty
string `e`, the held snapshot stays as it was, so every Bloch vector and the
probability distribution read as before; the entry `ERROR: e`, which contains
`e`, is appended to the diagnostics and is the latest diagnostic. -/
theorem onmessage_error_keeps_snapshot (s : AppState) (data : InboundMessage) (e : String)
    (herr : data.error = some e) (hne : e ≠ "") :
    (step s (Event.wsMessage (some data))).simulationResults = s.simulationResults ∧
    (∀ i, blochVectorFor (step s (Event.wsMessage (some data))) i = blochVectorFor s i) ∧
    probabilityDistribution (step s (Event.wsMessage (some data))) = probabilityDistribution s ∧
    (step s (Event.wsMessage (some data))).wsMessages = s.wsMessages ++ ["ERROR: " ++ e] ∧
    e.data <:+: ("ERROR: " ++ e).data ∧
    latestDiagnostic (step s (Event.wsMessage (some data))) = "ERROR: " ++ e := by
  have hstep : step s (Event.wsMessage (some data))
      = { s with wsMessages := s.wsMessages ++ ["ERROR: " ++ e] } := by
    rw [step_wsMessage]
    simp [App.onmessage, herr, hne]
  have hres : (step s (Event.wsMessage (some data))).simulationResults = s.simulationResults := by
    rw [hstep]
  refine ⟨hres, fun i => blochVectorFor_congr _ _ hres i,
    probabilityDistribution_congr _ _ hres, by rw [hstep], ?_, ?_⟩
  · rw [String.data_append]
    exact ⟨"ERROR: ".data, [], by simp⟩
  · rw [hstep]
    simp [latestDiagnostic, error_entry_ne_empty]

theorem onmessage_error_keeps_snapshot_witness :
    (step { AppState.initial with
              simulationResults := some ⟨none, some [[1, 0, 0]], some [("0", 1)]⟩ }
        (Event.wsMessage (some ⟨some "boom", none, none⟩))).simulationResults
      = some ⟨none, some [[1, 0, 0]], some [("0", 1)]⟩ ∧
    latestDiagnostic
      (step { AppState.initial with
                simulationResults := some ⟨none, some [[1, 0, 0]], some [("0", 1)]⟩ }
        (Event.wsMessage (some ⟨some "boom", none, none⟩))) = "ERROR: boom" := by
  have h := onmessage_error_keeps_snapshot
    { AppState.initial with
        simulationResults := some ⟨none, some [[1, 0, 0]], some [("0", 1)]⟩ }
    ⟨some "boom", none, none⟩ "boom" rfl (by decide)
  exact ⟨h.1, h.2.2.2.2.2⟩

/-- C9: after an inbound message `m` without error field the held snapshot is
`m`, whatever was held before: the probability distribution is the entries of
`m.probabilities` as received (nothing when the field is absent), and the
`i`-th Bloch vector is `m.blochVectors[i]` when that exists and `[0, 0, 1]`
otherwise. -/
theorem onmessage_replaces_snapshot (s : AppState) (m : InboundMessage)
    (hm : m.error = none) (i : Nat) :
    (step s (Event.wsMessage (some m))).simulationResults = some m ∧
    (∀ ps, m.probabilities = some ps →
      probabilityDistribution (step s (Event.wsMessage (some m))) = ps) ∧
    (m.probabilities = none →
      probabilityDistribution (step s (Event.wsMessage (some m))) = []) ∧
    (∀ vs v, m.blochVectors = some vs → vs.get? i = some v →
      blochVectorFor (step s (Event.wsMessage (some m))) i = v) ∧
    (∀ vs, m.blochVectors = some vs → vs.get? i = none →
      blochVectorFor (step s (Event.wsMessage (some m))) i = [0, 0, 1]) ∧
    (m.blochVectors = none →
      blochVectorFor (step s (Event.wsMessage (some m))) i = [0, 0, 1]) := by
  have hres : (step s (Event.wsMessage (some m))).simulationResults = some m := by
    rw [step_wsMessage]
    simp [App.onmessage, hm]
  refine ⟨hres, ?_, ?_, ?_, ?_, ?_⟩
  · intro ps hps
    simp [probabilityDistribution, hres, hps]
  · intro hps
    simp [probabilityDistribution, hres, hps]
  · intro vs v hvs hv
    simp only [blochVectorFor, hres, hvs, hv]
  · intro vs hvs hv
    simp only [blochVectorFor, hres, hvs, hv]
  · intro hvs
    simp only [blochVectorFor, hres, hvs]

theorem onmessage_replaces_snapshot_witness :
    (step { AppState.initial with
              simulationResults := some ⟨none, some [[1, 0, 0]], some [("0", 1)]⟩ }
        (Event.wsMessage
          (some ⟨none, some [[0, 1, 0]], some [("0", 1 / 2), ("1", 47 / 100)]⟩))).simulationResults
      = some ⟨none, some [[0, 1, 0]], some [("0", 1 / 2), ("1", 47 / 100)]⟩ ∧
    probabilityDistribution
      (step { AppState.initial with
                simulationResults := some ⟨none, some [[1, 0, 0]], some [("0", 1)]⟩ }
        (Event.wsMessage
          (some ⟨none, some [[0, 1, 0]], some [("0", 1 / 2), ("1", 47 / 100)]⟩)))
      = [("0", 1 / 2), ("1", 47 / 100)] ∧
    blochVectorFor
      (step { AppState.initial with
                simulationResults := some ⟨none, some [[1, 0, 0]], some [("0", 1)]⟩ }
        (Event.wsMessage
          (some ⟨none, some [[0, 1, 0]], some [("0", 1 / 2), ("1", 47 / 100)]⟩))) 0
      = [0, 1, 0] ∧
    blochVectorFor
      (step { AppState.initial with
                simulationResults := some ⟨none, some [[1, 0, 0]], some [("0", 1)]⟩ }
        (Event.wsMessage
          (some ⟨none, some [[0, 1, 0]], some [("0", 1 / 2), ("1", 47 / 100)]⟩))) 1
      = [0, 0, 1] := by
  have h0 := onmessage_replaces_snapshot
    { AppState.initial with
        simulationResults := some ⟨none, some [[1, 0, 0]], some [("0", 1)]⟩ }
    ⟨none, some [[0, 1, 0]], some [("0", 1 / 2), ("1", 47 / 100)]⟩ rfl 0
  have h1 := onmessage_replaces_snapshot
    { AppState.initial with
        simulationResults := some ⟨none, some [[1, 0, 0]], some [("0", 1)]⟩ }
    ⟨none, some [[0, 1, 0]], some [("0", 1 / 2), ("1", 47 / 100)]⟩ rfl 1
  exact ⟨h0.1, h0.2.1 _ rfl, h0.2.2.2.1 _ _ rfl rfl, h1.2.2.2.2.1 _ rfl rfl⟩

/-! ## Reset -/

/-- C10, as the code has it with an open connection: a reset of a connected
application whose socket is open hands two messages to the socket, not one. -/
theorem reset_connected_sends_twice :
    (step { AppState.initial with isConnected := true, readyState := ReadyState.OPEN }
        Event.reset).sent = [⟨2, []⟩, ⟨2, []⟩] ∧
    (step { AppState.initial with isConnected := true, readyState := ReadyState.OPEN }
        Event.reset).sent.length ≠ 1 := by
  decide

/-- C10, amended: from every state a reset gives qubit count 2, an empty gate
list and no snapshot, and appends the diagnostic CIRCUIT CLEARED.; when the
application is connected and its socket open, exactly two messages are handed
to the socket, one by the handler and one by the send-on-change effect, each
with qubit count 2 and no operations; when the application is not connected,
or its socket is not open, nothing is sent. -/
theorem reset_effect (s : AppState) :
    (step s Event.reset).numQubits = 2 ∧
    (step s Event.reset).circuitGates = [] ∧
    (step s Event.reset).simulationResults = none ∧
    (step s Event.reset).wsMessages = s.wsMessages ++ ["CIRCUIT CLEARED."] ∧
    (s.isConnected = true → s.readyState = ReadyState.OPEN →
      (step s Event.reset).sent = s.sent ++ [⟨2, []⟩, ⟨2, []⟩]) ∧
    (s.isConnected = false → (step s Event.reset).sent = s.sent) ∧
    (s.readyState ≠ ReadyState.OPEN → (step s Event.reset).sent = s.sent) := by
  have hf := render_frame s (handle Event.reset s)
  have hd : ∀ s1 : AppState, s1.gatesRef = s.gatesRef + 1 → depsChanged s s1 = true := by
    intro s1 h1
    simp [depsChanged, h1]
  refine ⟨?_, ?_, ?_, ?_, ?_, ?_, ?_⟩
  · unfold step; rw [hf.1]
    simp only [handle, App.handleReset]
    split
    · rw [(sendCircuitToBackend_frame _ _ _).1]
    · rfl
  · unfold step; rw [hf.2.1]
    simp only [handle, App.handleReset]
    split
    · rw [(sendCircuitToBackend_frame _ _ _).2.1]
    · rfl
  · unfold step; rw [hf.2.2.1]
    simp only [handle, App.handleReset]
    split
    · rw [(sendCircuitToBackend_frame _ _ _).2.2.1]
    · rfl
  · unfold step; rw [hf.2.2.2.2.1]
    simp only [handle, App.handleReset]
    split
    · rw [(sendCircuitToBackend_frame _ _ _).2.2.2.2.1]
    · rfl
  · intro hc ho
    simp [step, handle, App.handleReset, render, depsChanged, sendOnChange,
      sendCircuitToBackend, buildMessage, hc, ho]
  · intro hc
    simp [step, handle, App.handleReset, render, depsChanged, sendOnChange, hc]
  · intro ho
    cases hc : s.isConnected <;>
      simp [step, handle, App.handleReset, render, depsChanged, sendOnChange,
        sendCircuitToBackend, hc, ho]

theorem reset_effect_witness :
    (step { AppState.initial with isConnected := true, readyState := ReadyState.OPEN,
                                  circuitGates := [⟨"H", 0, 0⟩], numQubits := 3 }
        Event.reset).sent = [⟨2, []⟩, ⟨2, []⟩] ∧
    (step AppState.initial Event.reset).sent = [] := by
  have h1 := (reset_effect
    { AppState.initial with isConnected := true, readyState := ReadyState.OPEN,
                            circuitGates := [⟨"H", 0, 0⟩], numQubits := 3 }).2.2.2.2.1 rfl rfl
  have h2 := (reset_effect AppState.initial).2.2.2.2.2.1 rfl
  exact ⟨h1, h2⟩

/-! ## Connection loss -/

theorem step_wsClose (s : AppState) : step s Event.wsClose = App.onclose s := by
  simp [step, handle, render, sendOnChange, App.onclose]

theorem step_wsError (s : AppState) : step s Event.wsError = App.onerror s := by
  have hd : depsChanged s (App.onerror s) = false := by
    unfold App.onerror
    split <;> simp [depsChanged]
  simp [step, handle, render, hd]

theorem onerror_frame (s : AppState) :
    (App.onerror s).isConnected = s.isConnected ∧
    (App.onerror s).wsMessages = s.wsMessages := by
  unfold App.onerror
  split <;> simp

theorem mounted_run_timers (es : List Event) (m : Mounted) :
    (Mounted.run m es).timers = m.timers := by
  induction es generalizing m with
  | nil => rfl
  | cons e rest ih =>
    show (Mounted.run (Mounted.step m e) rest).timers = m.timers
    rw [ih]
    rfl

theorem hook_retry_sockets (s : useWebSocket.State) :
    (useWebSocket.timeout (useWebSocket.onclose s)).sockets = s.sockets + 1 := by
  unfold useWebSocket.timeout useWebSocket.onclose
  cases h : s.timers <;> simp [useWebSocket.connect]

/-- C11, as the code has it in `App.jsx`: after the connection has opened, a
close event leaves no timer pending, so no reconnect is scheduled; and an
error event alone leaves `isConnected` true and appends no diagnostic. -/
theorem app_close_schedules_no_reconnect :
    (Mounted.run Mounted.initial [Event.wsOpen, Event.wsClose]).timers = [] ∧
    (Mounted.run Mounted.initial [Event.wsOpen, Event.wsClose]).app.isConnected = false ∧
    (Mounted.run Mounted.initial [Event.wsOpen, Event.wsError]).app.isConnected = true ∧
    (Mounted.run Mounted.initial [Event.wsOpen, Event.wsError]).app.wsMessages
      = (Mounted.run Mounted.initial [Event.wsOpen]).app.wsMessages := by
  decide

/-- C11, amended.  In `App.jsx`, from every state a close event gives
`isConnected = false` and a closed socket and appends the diagnostic
CONNECTION LOST., and schedules nothing: no timer is ever pending.  An error
event only closes the socket, leaving `isConnected` and the diagnostics as they
are; it is the close event after it that gives `isConnected = false` and the
diagnostic.  In the hook `useWebSocket.js`, from every state a close event
gives `isConnected = false` and a closed socket, records no error and adds one
timer of 3000 ms that reconnects; an error event gives `isConnected = false`,
stores the message of the event and adds no timer; and any number `k` of
rounds of close and timer expiry constructs `k` further sockets. -/
theorem close_and_error_events (s : AppState) (m : Mounted) (es : List Event)
    (h : useWebSocket.State) (message : Option String) (k : Nat) :
    ((step s Event.wsClose).isConnected = false ∧
      (step s Event.wsClose).readyState = ReadyState.CLOSED ∧
      (step s Event.wsClose).wsMessages = s.wsMessages ++ ["CONNECTION LOST."] ∧
      (Mounted.step m Event.wsClose).timers = m.timers ∧
      (Mounted.run Mounted.initial es).timers = []) ∧
    ((step s Event.wsError).isConnected = s.isConnected ∧
      (step s Event.wsError).wsMessages = s.wsMessages ∧
      (Mounted.step m Event.wsError).timers = m.timers ∧
      (run s [Event.wsError, Event.wsClose]).isConnected = false ∧
      (run s [Event.wsError, Event.wsClose]).readyState = ReadyState.CLOSED ∧
      (run s [Event.wsError, Event.wsClose]).wsMessages
        = s.wsMessages ++ ["CONNECTION LOST."]) ∧
    ((useWebSocket.onclose h).isConnected = false ∧
      (useWebSocket.onclose h).readyState = ReadyState.CLOSED ∧
      (useWebSocket.onclose h).error = h.error ∧
      (useWebSocket.onclose h).timers = h.timers ++ [3000] ∧
      (useWebSocket.timeout (useWebSocket.onclose h)).sockets = h.sockets + 1) ∧
    ((useWebSocket.onerror message h).isConnected = false ∧
      (useWebSocket.onerror message h).error = message ∧
      (useWebSocket.onerror message h).timers = h.timers) ∧
    ((fun x => useWebSocket.timeout (useWebSocket.onclose x))^[k] h).sockets
      = h.sockets + k := by
  refine ⟨⟨?_, ?_, ?_, rfl, mounted_run_timers es Mounted.initial⟩,
    ⟨?_, ?_, rfl, ?_, ?_, ?_⟩,
    ⟨rfl, rfl, rfl, rfl, hook_retry_sockets h⟩, ⟨rfl, rfl, rfl⟩, ?_⟩
  · rw [step_wsClose]; rfl
  · rw [step_wsClose]; rfl
  · rw [step_wsClose]; rfl
  · rw [step_wsError]; exact (onerror_frame s).1
  · rw [step_wsError]; exact (onerror_frame s).2
  · show (step (step s Event.wsError) Event.wsClose).isConnected = false
    rw [step_wsClose]; rfl
  · show (step (step s Event.wsError) Event.wsClose).readyState = ReadyState.CLOSED
    rw [step_wsClose]; rfl
  · show (step (step s Event.wsError) Event.wsClose).wsMessages = _
    rw [step_wsClose, step_wsError]
    show (App.onerror s).wsMessages ++ ["CONNECTION LOST."] = _
    rw [(onerror_frame s).2]
  · induction k with
    | zero => rfl
    | succ j ih =>
      rw [Function.iterate_succ_apply', hook_retry_sockets, ih]
      omega

/-! ## Well-formed operations -/

theorem toOperation_type (n : JsNum) (g : Gate) : (toOperation n g).type = g.type := by
  unfold toOperation
  split <;> split <;> rfl

theorem toOperation_of_cnot (n : JsNum) (g : Gate) (hc : g.type = "CNOT") :
    (toOperation n g).control = some g.qubitIndex ∧
    (toOperation n g).target = jsRem ((g.qubitIndex : Int) + 1) n := by
  simp [toOperation, hc, startsWith_R_CNOT]

theorem toOperation_of_not_cnot (n : JsNum) (g : Gate) (hc : g.type ≠ "CNOT") :
    (toOperation n g).control = none ∧
    (toOperation n g).target = JsNum.int g.qubitIndex := by
  unfold toOperation
  simp only [hc, if_false]
  split <;> simp

theorem jsRem_succ_natCast (q n : Nat) (hn : 0 < n) :
    jsRem ((q : Int) + 1) (JsNum.int n) = JsNum.int (((q + 1) % n : Nat) : Int) := by
  have hn0 : (n : Int) ≠ 0 := by omega
  have hrem : Int.tmod ((q : Int) + 1) (n : Int) = ((q : Int) + 1) % (n : Int) :=
    Int.tmod_eq_emod (by omega) (by omega)
  simp only [jsRem, hn0, if_false, hrem]
  congr 1

theorem succ_mod_ne_self (q n : Nat) (hn : 2 ≤ n) (hq : q < n) : (q + 1) % n ≠ q := by
  rcases Nat.lt_or_ge (q + 1) n with h | h
  · rw [Nat.mod_eq_of_lt h]; omega
  · have hqn : q + 1 = n := by omega
    rw [hqn, Nat.mod_self]; omega

/-- C12: for a qubit count `n ≥ 2` and a gate list whose gates all have
`qubitIndex < n`, every emitted operation has a target in `[0, n)`, and every
emitted CNOT has a control in `[0, n)` that differs from its target; for
`n = 1` a CNOT at qubit 0 is emitted with control 0 and target 0. -/
theorem translated_operations_in_range (n : Nat) (hn : 2 ≤ n) (gates : List Gate)
    (hg : ∀ g ∈ gates, g.qubitIndex < n) :
    (∀ op ∈ (buildMessage (JsNum.int n) gates).operations,
      (∃ t : Nat, op.target = JsNum.int t ∧ t < n) ∧
      (op.type = "CNOT" →
        ∃ c : Nat, op.control = some c ∧ c < n ∧ op.target ≠ JsNum.int c)) ∧
    (∀ t, toOperation 1 ⟨"CNOT", 0, t⟩ = ⟨"CNOT", some 0, 0, none⟩) := by
  constructor
  · intro op hop
    simp only [buildMessage, List.mem_map] at hop
    obtain ⟨g, hgm, rfl⟩ := hop
    have hq := hg g hgm
    by_cases hc : g.type = "CNOT"
    · have h1 := toOperation_of_cnot (JsNum.int n) g hc
      rw [jsRem_succ_natCast g.qubitIndex n (by omega)] at h1
      refine ⟨⟨(g.qubitIndex + 1) % n, h1.2, Nat.mod_lt _ (by omega)⟩, fun _ => ?_⟩
      refine ⟨g.qubitIndex, h1.1, hq, ?_⟩
      rw [h1.2]
      intro heq
      injection heq with heq
      exact succ_mod_ne_self g.qubitIndex n hn hq (by exact_mod_cast heq)
    · have h1 := toOperation_of_not_cnot (JsNum.int n) g hc
      refine ⟨⟨g.qubitIndex, h1.2, hq⟩, fun hty => ?_⟩
      rw [toOperation_type] at hty
      exact absurd hty hc
  · intro t
    simp [toOperation, startsWith_R_CNOT, jsRem]
    decide

theorem translated_operations_in_range_witness :
    (2 : Nat) ≤ 2 ∧ (∀ g ∈ [(⟨"H", 0, 0⟩ : Gate), ⟨"CNOT", 1, 1⟩], g.qubitIndex < 2) ∧
    (∀ op ∈ (buildMessage (JsNum.int (2 : Nat)) [⟨"H", 0, 0⟩, ⟨"CNOT", 1, 1⟩]).operations,
      (∃ t : Nat, op.target = JsNum.int t ∧ t < 2) ∧
      (op.type = "CNOT" →
        ∃ c : Nat, op.control = some c ∧ c < 2 ∧ op.target ≠ JsNum.int c)) := by
  have hg : ∀ g ∈ [(⟨"H", 0, 0⟩ : Gate), ⟨"CNOT", 1, 1⟩], g.qubitIndex < 2 := by
    intro g hgm
    simp only [List.mem_cons, List.mem_singleton, List.not_mem_nil, or_false] at hgm
    rcases hgm with rfl | rfl <;> decide
  exact ⟨by decide, hg,
    (translated_operations_in_range 2 (by decide) [⟨"H", 0, 0⟩, ⟨"CNOT", 1, 1⟩] hg).1⟩

end QuantumSimulator
